import Mathlib

/-!
Formal model of the EcoTrack client core, shallowly embedded from the
TypeScript sources: the gamification aggregation engine
(src/lib/gamification: actionCo2Lb, calculateLevel, calculateStreak,
calculateTotalCo2, calculateBadges, BADGE_DEFINITIONS), the
distance/geometry helpers (src/lib/directions.ts: haversineDistance,
fetchRoute, decodePolyline) and the action submission flow
(app/(tabs)/tracker.tsx: logAction).

Modelling conventions:
- JavaScript numbers are modelled by `JsNum`: exact rationals plus the
  special values NaN, +Infinity and -Infinity.  Double rounding is not
  modelled; the algorithms under study are exact on the inputs of
  interest.
- JavaScript 32-bit bitwise operators (used by the polyline decoder) are
  modelled on ℤ with explicit wrapping to the signed 32-bit range.
- Local calendar days (dayjs "YYYY-MM-DD" buckets) are modelled as ℤ:
  day d+1 is the calendar day after day d, and the timestamp-to-day map
  of the evaluation device is an arbitrary parameter `dayOf : ℤ → ℤ`;
  `today` is a parameter as well, with yesterday = today - 1.
- The two external asynchronous collaborators (the Google Directions
  transport and the CO₂ estimation agent) are passed in as `Except`
  values describing the outcome the collaborator would produce, and a
  thrown JS exception is an `Except.error`; a caught exception resumes
  in the catch branch exactly as in the source.
-/

/-- A JavaScript number: a finite rational, NaN, or a signed infinity. -/
inductive JsNum where
  | fin : ℚ → JsNum
  | nan : JsNum
  | posInf : JsNum
  | negInf : JsNum
deriving DecidableEq

/-- JS addition (`+`) on numbers. -/
def jsAdd : JsNum → JsNum → JsNum
  | JsNum.fin a, JsNum.fin b => JsNum.fin (a + b)
  | JsNum.nan, _ => JsNum.nan
  | _, JsNum.nan => JsNum.nan
  | JsNum.posInf, JsNum.negInf => JsNum.nan
  | JsNum.negInf, JsNum.posInf => JsNum.nan
  | JsNum.posInf, _ => JsNum.posInf
  | _, JsNum.posInf => JsNum.posInf
  | JsNum.negInf, _ => JsNum.negInf
  | _, JsNum.negInf => JsNum.negInf

/-- JS multiplication (`*`) on numbers. -/
def jsMul : JsNum → JsNum → JsNum
  | JsNum.fin a, JsNum.fin b => JsNum.fin (a * b)
  | JsNum.nan, _ => JsNum.nan
  | _, JsNum.nan => JsNum.nan
  | JsNum.posInf, JsNum.posInf => JsNum.posInf
  | JsNum.posInf, JsNum.negInf => JsNum.negInf
  | JsNum.negInf, JsNum.posInf => JsNum.negInf
  | JsNum.negInf, JsNum.negInf => JsNum.posInf
  | JsNum.posInf, JsNum.fin b =>
      if b = 0 then JsNum.nan else if 0 < b then JsNum.posInf else JsNum.negInf
  | JsNum.fin a, JsNum.posInf =>
      if a = 0 then JsNum.nan else if 0 < a then JsNum.posInf else JsNum.negInf
  | JsNum.negInf, JsNum.fin b =>
      if b = 0 then JsNum.nan else if 0 < b then JsNum.negInf else JsNum.posInf
  | JsNum.fin a, JsNum.negInf =>
      if a = 0 then JsNum.nan else if 0 < a then JsNum.negInf else JsNum.posInf

/-- JS division (`/`) on numbers (signed zero is not modelled: a finite
nonzero value divided by zero yields the infinity of the obvious sign). -/
def jsDiv : JsNum → JsNum → JsNum
  | JsNum.fin a, JsNum.fin b =>
      if b = 0 then
        (if a = 0 then JsNum.nan else if 0 < a then JsNum.posInf else JsNum.negInf)
      else JsNum.fin (a / b)
  | JsNum.nan, _ => JsNum.nan
  | _, JsNum.nan => JsNum.nan
  | JsNum.posInf, JsNum.fin b => if 0 ≤ b then JsNum.posInf else JsNum.negInf
  | JsNum.negInf, JsNum.fin b => if 0 ≤ b then JsNum.negInf else JsNum.posInf
  | JsNum.fin _, _ => JsNum.fin 0
  | _, _ => JsNum.nan

/-- JS `Math.floor`. -/
def jsFloor : JsNum → JsNum
  | JsNum.fin a => JsNum.fin (⌊a⌋ : ℚ)
  | x => x

/-- JS `<=` comparison (false whenever an operand is NaN). -/
def jsLe : JsNum → JsNum → Bool
  | JsNum.nan, _ => false
  | _, JsNum.nan => false
  | JsNum.negInf, _ => true
  | _, JsNum.posInf => true
  | JsNum.fin a, JsNum.fin b => decide (a ≤ b)
  | JsNum.fin _, JsNum.negInf => false
  | JsNum.posInf, _ => false

/-- JS `>=` comparison: `a >= b` holds exactly when `b <= a`. -/
def jsGe (a b : JsNum) : Bool := jsLe b a

/-- JS `Number.isFinite`. -/
def isFiniteNum : JsNum → Bool
  | JsNum.fin _ => true
  | _ => false

/-- The JS expression `x || 0` applied to a possibly-absent numeric
field: `undefined` and `NaN` are falsy and give `0`; every other number
(including `0` itself, infinities and negatives) passes through. -/
def jsOrZero : Option JsNum → JsNum
  | none => JsNum.fin 0
  | some JsNum.nan => JsNum.fin 0
  | some v => v

/-- Wrap an integer to the signed 32-bit range (JS `ToInt32`). -/
def toInt32 (n : ℤ) : ℤ := (n + 2 ^ 31) % 2 ^ 32 - 2 ^ 31

/-- JS bitwise `&` (both operands coerced to int32). -/
def jsAnd (a b : ℤ) : ℤ := Int.land (toInt32 a) (toInt32 b)

/-- JS bitwise `|` (both operands coerced to int32). -/
def jsOr (a b : ℤ) : ℤ := Int.lor (toInt32 a) (toInt32 b)

/-- JS `<<`: shift count is taken mod 32, result wrapped to int32. -/
def jsShl (a : ℤ) (s : ℕ) : ℤ := toInt32 (toInt32 a * 2 ^ (s % 32))

/-- JS `>>` (sign-propagating right shift). -/
def jsShr (a : ℤ) (s : ℕ) : ℤ := Int.shiftRight (toInt32 a) (s % 32)

/-- JS `~` (bitwise not) on an int32-coerced operand. -/
def jsNot (a : ℤ) : ℤ := -(toInt32 a) - 1

/-! ## Gamification engine (src/lib/gamification) -/

/-- `const KG_TO_LB = 2.20462` (shared by gamification and tracker). -/
def KG_TO_LB : ℚ := 2.20462

/-- Action stored in Firebase (interface `EcoActionRecord`).  The
numeric fields are `Option JsNum`: `none` models an absent
(`undefined`) field, and `co2_saved_kg` is optional here because the
reader code defends against its absence with `|| 0` even though the
TypeScript interface declares it required. -/
structure EcoActionRecord where
  action : String
  distance_km : Option JsNum
  distance_mi : Option JsNum
  co2_saved_kg : Option JsNum
  co2_saved_lb : Option JsNum
  message : String
  ts : ℤ
deriving DecidableEq

/-- Per-record CO₂ reconciliation:
`typeof a.co2_saved_lb === "number" ? a.co2_saved_lb : (a.co2_saved_kg || 0) * KG_TO_LB`.
Note the guard is a `typeof` test: any present numeric value (NaN and
infinities included) is returned verbatim. -/
def actionCo2Lb (a : EcoActionRecord) : JsNum :=
  match a.co2_saved_lb with
  | some v => v
  | none => jsMul (jsOrZero a.co2_saved_kg) (JsNum.fin KG_TO_LB)

/-- Badge definition (the fixed catalog entries, `Omit<Badge, "earned">`). -/
structure BadgeDef where
  id : String
  name : String
  description : String
  icon : String
  threshold : ℚ
deriving DecidableEq

/-- Badge with its per-evaluation `earned` flag (interface `Badge`). -/
structure Badge where
  id : String
  name : String
  description : String
  icon : String
  threshold : ℚ
  earned : Bool
deriving DecidableEq

/-- The fixed badge catalog `BADGE_DEFINITIONS`. -/
def BADGE_DEFINITIONS : List BadgeDef :=
  [ { id := "starter", name := "Eco Starter",
      description := "Save your first 1 lb of CO₂", icon := "🌱", threshold := 1 },
    { id := "committed", name := "Eco Committed",
      description := "Save 5 lb of CO₂", icon := "🌿", threshold := 5 },
    { id := "champion", name := "Eco Champion",
      description := "Save 10 lb of CO₂", icon := "🏆", threshold := 10 },
    { id := "hero", name := "Eco Hero",
      description := "Save 25 lb of CO₂", icon := "⭐", threshold := 25 },
    { id := "legend", name := "Eco Legend",
      description := "Save 50 lb of CO₂", icon := "👑", threshold := 50 },
    { id := "guardian", name := "Planet Guardian",
      description := "Save 100 lb of CO₂", icon := "🌍", threshold := 100 } ]

/-- `calculateLevel`: `Math.floor(totalCo2Saved / 5) + 1`. -/
def calculateLevel (totalCo2Saved : JsNum) : JsNum :=
  jsAdd (jsFloor (jsDiv totalCo2Saved (JsNum.fin 5))) (JsNum.fin 1)

/-- The streak-counting `for` loop of `calculateStreak`: starting from
the most recent day, count while each next (older) day in the
descending list is exactly one calendar day earlier, and stop at the
first larger gap. -/
def runLen : ℤ → List ℤ → ℕ
  | _, [] => 0
  | prev, d :: rest => if prev - d = 1 then 1 + runLen d rest else 0

/-- `calculateStreak` (consecutive days with at least one action).
`dayOf` is the device-local timestamp-to-calendar-day map
(`dayjs(ts).format("YYYY-MM-DD")`), `today` the local day at evaluation
time.  The source first sorts the actions by timestamp; that sort only
affects the insertion order of the day `Set` and is erased by the later
day sort, so it is dropped here.  `Array.sort().reverse()` on the
"YYYY-MM-DD" keys yields the distinct days in descending calendar
order, modelled by an insertion sort with `≥`. -/
def calculateStreak (dayOf : ℤ → ℤ) (today : ℤ) (actions : List EcoActionRecord) : ℕ :=
  if actions.isEmpty then 0
  else
    let activeDays : List ℤ := (actions.map fun a => dayOf a.ts).dedup
    let sortedDays := activeDays.insertionSort (fun d e => d ≥ e)
    match sortedDays with
    | [] => 0
    | d :: rest =>
      let yesterday := today - 1
      if d ≠ today ∧ d ≠ yesterday then 0
      else 1 + runLen d rest

/-- `calculateTotalCo2`: `actions.reduce((sum, a) => sum + actionCo2Lb(a), 0)`. -/
def calculateTotalCo2 (actions : List EcoActionRecord) : JsNum :=
  actions.foldl (fun sum a => jsAdd sum (actionCo2Lb a)) (JsNum.fin 0)

/-- `calculateBadges`: map the catalog to `{...badge, earned: totalCo2Saved >= badge.threshold}`. -/
def calculateBadges (totalCo2Saved : JsNum) : List Badge :=
  BADGE_DEFINITIONS.map fun badge =>
    { id := badge.id, name := badge.name, description := badge.description,
      icon := badge.icon, threshold := badge.threshold,
      earned := jsGe totalCo2Saved (JsNum.fin badge.threshold) }

/-! ## Spec-side definitions (§4.4 of the specification, stated in the
vocabulary of the specification itself, to be compared with the code) -/

/-- Sum of a list of JS numbers, `0`-based from the left. -/
def sumLb (l : List JsNum) : JsNum := l.foldl jsAdd (JsNum.fin 0)

/-- Maximum of a list of days (`none` for the empty list). -/
def listMax : List ℤ → Option ℤ
  | [] => none
  | x :: xs => some (xs.foldl max x)

/-- Length of the contiguous run of calendar days present in `days`
that ends at `m` and walks backwards one day at a time (with enough
fuel to exhaust any run). -/
def consecFrom (days : List ℤ) : ℕ → ℤ → ℕ
  | 0, _ => 0
  | n + 1, m => if m ∈ days then 1 + consecFrom days n (m - 1) else 0

/-- The streak exactly as §4.4 of the specification words it: reduce the
history to the set of distinct local-calendar days; empty set ⇒ 0; most
recent active day neither today nor yesterday ⇒ 0; otherwise the length
of the contiguous run of days ending at the most recent active day. -/
def specStreak (dayOf : ℤ → ℤ) (today : ℤ) (actions : List EcoActionRecord) : ℕ :=
  let days : List ℤ := (actions.map fun a => dayOf a.ts).dedup
  match listMax days with
  | none => 0
  | some m =>
      if m = today ∨ m = today - 1 then consecFrom days days.length m else 0

/-- Strip the derived `earned` flag from a badge, recovering a catalog entry. -/
def stripEarned (b : Badge) : BadgeDef :=
  { id := b.id, name := b.name, description := b.description,
    icon := b.icon, threshold := b.threshold }

/-! ## Directions helper (src/lib/directions.ts) -/

/-- Latitude/longitude pair (interface `Coordinate`).  Coordinates are
exact rationals; they are cast to ℝ inside the trigonometric
Haversine computation. -/
structure Coordinate where
  latitude : ℚ
  longitude : ℚ
deriving DecidableEq

/-- Result of distance resolution (interface `RouteResult`). -/
structure RouteResult where
  distance_mi : ℝ
  polyline : String
  duration_s : Option ℚ

/-- JS `Math.atan2` on real arguments. -/
noncomputable def atan2 (y x : ℝ) : ℝ :=
  if 0 < x then Real.arctan (y / x)
  else if x < 0 then
    (if 0 ≤ y then Real.arctan (y / x) + Real.pi else Real.arctan (y / x) - Real.pi)
  else
    (if 0 < y then Real.pi / 2 else if y < 0 then -(Real.pi / 2) else 0)

/-- Haversine distance in miles (the private helper of directions.ts:
6371e3 m Earth radius, meters → km → miles, unrounded). -/
noncomputable def haversineDistance (f t : Coordinate) : ℝ :=
  let R : ℝ := 6371000
  let phi1 := ((f.latitude : ℝ) * Real.pi) / 180
  let phi2 := ((t.latitude : ℝ) * Real.pi) / 180
  let dphi := (((t.latitude : ℝ) - (f.latitude : ℝ)) * Real.pi) / 180
  let dlam := (((t.longitude : ℝ) - (f.longitude : ℝ)) * Real.pi) / 180
  let a := Real.sin (dphi / 2) * Real.sin (dphi / 2) +
      Real.cos phi1 * Real.cos phi2 * Real.sin (dlam / 2) * Real.sin (dlam / 2)
  let c := 2 * atan2 (Real.sqrt a) (Real.sqrt (1 - a))
  let meters := R * c
  let km := meters / 1000
  km * 0.621371

/-- One leg of a Google Directions route: `distance.value` in meters,
optional `duration.value` in seconds. -/
structure DirectionsLeg where
  distance_value : ℚ
  duration_value : Option ℚ
deriving DecidableEq

/-- One route of a Google Directions response. -/
structure DirectionsRoute where
  legs : List DirectionsLeg
  overview_polyline_points : String
deriving DecidableEq

/-- Parsed body of a Google Directions response: a status string plus
the route list (an absent `routes` array is modelled as `[]`, which the
source treats identically). -/
structure DirectionsData where
  status : String
  routes : List DirectionsRoute
deriving DecidableEq

/-- The Haversine fallback result of `fetchRoute`: straight-line
distance, empty polyline, no duration. -/
noncomputable def routeFallback (origin destination : Coordinate) : RouteResult :=
  { distance_mi := haversineDistance origin destination,
    polyline := "", duration_s := none }

/-- The `try` block of `fetchRoute` once the network outcome `net` is
known (`Except.error` = transport failure of `fetch`/`json`).  Every
`throw` in the source is an `Except.error`: non-"OK" status, empty
route list, and the TypeError raised by `leg.duration` when
`route.legs` is empty (`route.legs[0]` being `undefined`). -/
noncomputable def fetchRouteAttempt (net : Except Unit DirectionsData) :
    Except Unit RouteResult :=
  match net with
  | Except.error e => Except.error e
  | Except.ok data =>
    if data.status ≠ "OK" then Except.error ()
    else
      match data.routes with
      | [] => Except.error ()
      | route :: _ =>
        match route.legs with
        | [] => Except.error ()
        | leg :: _ =>
          let totalMeters := route.legs.foldl (fun acc l => acc + l.distance_value) 0
          let km := totalMeters / 1000
          Except.ok
            { distance_mi := ((km * 0.621371 : ℚ) : ℝ),
              polyline := route.overview_polyline_points,
              duration_s := leg.duration_value }

/-- `fetchRoute`.  `apiKey` models `GOOGLE_MAPS_API_KEY` (the config
defaults an unset env var to `""`, and `!GOOGLE_MAPS_API_KEY` is exactly
the test for `""`); `net` is the outcome the network would produce and
is consulted only on the network path; `mode` is used only to build the
request URL and does not influence the modelled control flow. -/
noncomputable def fetchRoute (apiKey : String) (net : Except Unit DirectionsData)
    (origin destination : Coordinate) (mode : String) : RouteResult :=
  if apiKey = "" then routeFallback origin destination
  else
    match fetchRouteAttempt net with
    | Except.ok r => r
    | Except.error _ => routeFallback origin destination

/-- The inner `do … while` of `decodePolyline`: accumulate 5-bit groups
of `charCodeAt(index++) - 63` into `result` while the continuation bit
(0x20 before masking) is set.  Reading past the end of the string gives
`NaN`, which contributes nothing, fails `b >= 0x20`, and ends the loop:
running out of characters returns the accumulator unchanged.  Returns
the accumulated value and the unconsumed characters. -/
def readVarint : List ℤ → ℕ → ℤ → ℤ × List ℤ
  | [], _, result => (result, [])
  | c :: rest, shift, result =>
    let b := c - 63
    let result1 := jsOr result (jsShl (jsAnd b 31) shift)
    if 32 ≤ b then readVarint rest (shift + 5) result1 else (result1, rest)

/-- The outer `while (index < encoded.length)` loop of `decodePolyline`,
embedded with explicit fuel (one unit per produced point; each point
consumes at least one character, so `codes.length` units suffice —
see `decodeLoop_fuel_irrelevant`). -/
def decodeLoop : ℕ → List ℤ → ℤ → ℤ → List Coordinate
  | 0, _, _, _ => []
  | _ + 1, [], _, _ => []
  | fuel + 1, c :: cs, lat, lng =>
    let p1 := readVarint (c :: cs) 0 0
    let dlat := if jsAnd p1.1 1 ≠ 0 then jsNot (jsShr p1.1 1) else jsShr p1.1 1
    let lat1 := lat + dlat
    let p2 := readVarint p1.2 0 0
    let dlng := if jsAnd p2.1 1 ≠ 0 then jsNot (jsShr p2.1 1) else jsShr p2.1 1
    let lng1 := lng + dlng
    { latitude := (lat1 : ℚ) / 100000, longitude := (lng1 : ℚ) / 100000 } ::
      decodeLoop fuel p2.2 lat1 lng1

/-- `decodePolyline`: `if (!encoded) return []`, then the delta /
zig-zag / 5-bit-group decode over the UTF-16 code units of the string
(the running `lat`/`lng` accumulators are exact integers here; JS
doubles are exact on them for every realistic input size). -/
def decodePolyline (encoded : String) : List Coordinate :=
  if encoded = "" then []
  else
    let codes : List ℤ := encoded.data.map fun ch => (ch.toNat : ℤ)
    decodeLoop codes.length codes 0 0

/-! ## Action submission flow (app/(tabs)/tracker.tsx) -/

/-- The four tracker action buttons. -/
inductive ActionType where
  | bike : ActionType
  | walk : ActionType
  | recycled : ActionType
  | vegetarian : ActionType
deriving DecidableEq

/-- Mapping of the tracker from button to agent action kind. -/
def agentActionOf : ActionType → String
  | ActionType.bike => "bike_trip"
  | ActionType.walk => "walk_trip"
  | ActionType.recycled => "recycled"
  | ActionType.vegetarian => "ate_vegetarian"

/-- `agent_meta` of the estimation response. -/
structure AgentMeta where
  engine : String
  model : String
  timestamp : ℤ
deriving DecidableEq

/-- Response of the CO₂-estimation collaborator (interface
`Co2SavingsResponse`).  `co2_saved_kg` is a `JsNum` so that a malformed
(non-finite) value can be represented. -/
structure Co2SavingsResponse where
  user_id : String
  action : String
  co2_saved_kg : JsNum
  message : String
  agent_meta : Option AgentMeta
deriving DecidableEq

/-- The record `logAction` pushes to the external store on success
(the payload of the `push` call). -/
structure StoredAction where
  action : String
  distance_mi : ℚ
  co2_saved_kg : ℚ
  co2_saved_lb : ℚ
  message : String
  agent_engine : String
  ts : ℤ
deriving DecidableEq

/-- `logAction` of the tracker screen, with the estimation
outcome of the collaborator passed in (`Except.error` = `getCo2Savings`
threw).  Returns the record handed to the persistence collaborator, or
`none` when the flow aborts before persisting: a collaborator failure,
or a response whose `co2_saved_kg` fails the `Number.isFinite` guard
(the source then throws, and its catch branch performs no write). -/
def logAction (actionType : ActionType) (distance : ℚ) (now : ℤ)
    (agentResult : Except Unit Co2SavingsResponse) : Option StoredAction :=
  match agentResult with
  | Except.error _ => none
  | Except.ok resp =>
    match resp.co2_saved_kg with
    | JsNum.fin co2Kg =>
      let engine := resp.agent_meta.map fun m => m.engine
      some
        { action := agentActionOf actionType,
          distance_mi := distance,
          co2_saved_kg := co2Kg,
          co2_saved_lb := co2Kg * KG_TO_LB,
          message := resp.message,
          agent_engine :=
            match engine with
            | some e => if e = "" then "unknown" else e
            | none => "unknown",
          ts := now }
    | _ => none

/-- The submission flow around `logAction`: the distance-resolution
step runs first (in the DistancePicker modal), and only a successfully
resolved distance reaches `logAction`; a distance-resolution failure
means `logAction` — and hence the persistence call — never runs. -/
def submitAction (actionType : ActionType) (distResult : Except Unit ℚ) (now : ℤ)
    (agentResult : Except Unit Co2SavingsResponse) : Option StoredAction :=
  match distResult with
  | Except.error _ => none
  | Except.ok d => logAction actionType d now agentResult


/-! ## Helper lemmas -/

theorem jsLe_trans {a b c : JsNum} (h1 : jsLe a b = true) (h2 : jsLe b c = true) :
    jsLe a c = true := by
  cases a <;> cases b <;> cases c <;> simp_all [jsLe] <;> exact le_trans h1 h2

theorem sorted_ge_nodup_gt : ∀ (l : List ℤ),
    List.Sorted (fun d e => d ≥ e) l → l.Nodup → l.Pairwise (fun d e => d > e)
  | [], _, _ => List.Pairwise.nil
  | x :: xs, h1, h2 => by
    rw [List.sorted_cons] at h1
    rw [List.nodup_cons] at h2
    exact List.pairwise_cons.mpr
      ⟨fun y hy => lt_of_le_of_ne (h1.1 y hy) fun he => h2.1 (he ▸ hy),
        sorted_ge_nodup_gt xs h1.2 h2.2⟩

theorem foldl_max_spec : ∀ (xs : List ℤ) (a : ℤ),
    a ≤ xs.foldl max a ∧ (∀ y ∈ xs, y ≤ xs.foldl max a) ∧
      (xs.foldl max a = a ∨ xs.foldl max a ∈ xs)
  | [], a => ⟨le_rfl, fun y hy => absurd hy (List.not_mem_nil y), Or.inl rfl⟩
  | x :: xs, a => by
    obtain ⟨h1, h2, h3⟩ := foldl_max_spec xs (max a x)
    simp only [List.foldl_cons]
    refine ⟨le_trans (le_max_left a x) h1, fun y hy => ?_, ?_⟩
    · rcases List.mem_cons.mp hy with rfl | hy2
      · exact le_trans (le_max_right a y) h1
      · exact h2 y hy2
    · rcases h3 with he | hm
      · rcases max_choice a x with hax | hax
        · exact Or.inl (by rw [he, hax])
        · exact Or.inr (by rw [he, hax]; exact List.mem_cons_self x xs)
      · exact Or.inr (List.mem_cons_of_mem x hm)

theorem consec_congr : ∀ (n : ℕ) (S S2 : List ℤ) (m : ℤ),
    (∀ y : ℤ, y ≤ m → (y ∈ S ↔ y ∈ S2)) → consecFrom S n m = consecFrom S2 n m
  | 0, _, _, _, _ => rfl
  | n + 1, S, S2, m, h => by
    simp only [consecFrom]
    by_cases hm : m ∈ S
    · rw [if_pos hm, if_pos ((h m le_rfl).mp hm),
        consec_congr n S S2 (m - 1) fun y hy => h y (by omega)]
    · rw [if_neg hm, if_neg fun c => hm ((h m le_rfl).mpr c)]

theorem consec_notMem (S : List ℤ) (n : ℕ) (m : ℤ) (h : m ∉ S) :
    consecFrom S n m = 0 := by
  cases n with
  | zero => rfl
  | succ k => simp [consecFrom, h]

theorem consec_run : ∀ (rest : List ℤ) (d : ℤ),
    (d :: rest).Pairwise (fun a b => a > b) →
    ∀ n : ℕ, rest.length + 1 ≤ n → consecFrom (d :: rest) n d = 1 + runLen d rest
  | [], d, _, n, hn => by
    obtain ⟨k, rfl⟩ : ∃ k, n = k + 1 := ⟨n - 1, by omega⟩
    simp only [consecFrom, runLen]
    rw [if_pos (List.mem_cons_self d [])]
    rw [consec_notMem _ _ _ (by intro h2; simp at h2)]
  | e :: rest2, d, hp, n, hn => by
    obtain ⟨k, rfl⟩ : ∃ k, n = k + 1 := ⟨n - 1, by omega⟩
    have hde : d > e := (List.pairwise_cons.mp hp).1 e (List.mem_cons_self e rest2)
    have hp2 : (e :: rest2).Pairwise (fun a b => a > b) := (List.pairwise_cons.mp hp).2
    have hrest2 : ∀ y ∈ rest2, y < e := fun y hy => (List.pairwise_cons.mp hp2).1 y hy
    simp only [consecFrom, runLen]
    rw [if_pos (List.mem_cons_self d (e :: rest2))]
    by_cases hgap : d - e = 1
    · rw [if_pos hgap]
      have hcongr : consecFrom (d :: e :: rest2) k (d - 1) =
          consecFrom (e :: rest2) k (d - 1) :=
        consec_congr k _ _ _ fun y hy => by
          simp only [List.mem_cons]
          constructor
          · rintro (rfl | h)
            · exfalso; omega
            · exact h
          · exact fun h => Or.inr h
      have he1 : d - 1 = e := by omega
      rw [hcongr, he1, consec_run rest2 e hp2 k
        (by simp only [List.length_cons] at hn; omega)]
    · rw [if_neg hgap]
      have hnm : d - 1 ∉ d :: e :: rest2 := by
        simp only [List.mem_cons]
        push_neg
        refine ⟨by omega, by omega, fun hy => ?_⟩
        have := hrest2 _ hy
        omega
      rw [consec_notMem _ _ _ hnm]

theorem streak_core (days : List ℤ) (nd : days.Nodup) (today : ℤ) :
    (match days.insertionSort (fun d e => d ≥ e) with
      | [] => (0 : ℕ)
      | d :: rest => if d ≠ today ∧ d ≠ today - 1 then 0 else 1 + runLen d rest) =
    (match listMax days with
      | none => (0 : ℕ)
      | some m => if m = today ∨ m = today - 1 then consecFrom days days.length m
                  else 0) := by
  haveI : IsTotal ℤ fun d e => d ≥ e := ⟨fun a b => le_total b a⟩
  haveI : IsTrans ℤ fun d e => d ≥ e := ⟨fun a b c h1 h2 => le_trans h2 h1⟩
  cases days with
  | nil => rfl
  | cons x xs =>
    cases hs : (x :: xs).insertionSort (fun d e => d ≥ e) with
    | nil =>
      exfalso
      have := (List.perm_insertionSort (fun d e : ℤ => d ≥ e) (x :: xs)).length_eq
      rw [hs] at this
      simp at this
    | cons d rest =>
      obtain ⟨hmem, hle, -⟩ := foldl_max_spec xs x
      have hmax_mem : xs.foldl max x ∈ x :: xs := by
        rcases (foldl_max_spec xs x).2.2 with he | hm
        · rw [he]; exact List.mem_cons_self x xs
        · exact List.mem_cons_of_mem x hm
      have hmax_le : ∀ y ∈ x :: xs, y ≤ xs.foldl max x := by
        intro y hy
        rcases List.mem_cons.mp hy with rfl | hy2
        · exact hmem
        · exact (foldl_max_spec xs x).2.1 y hy2
      have hperm : List.Perm (d :: rest) (x :: xs) :=
        hs ▸ List.perm_insertionSort (fun d e : ℤ => d ≥ e) (x :: xs)
      have hsorted : List.Sorted (fun d e => d ≥ e) (d :: rest) :=
        hs ▸ List.sorted_insertionSort (fun d e : ℤ => d ≥ e) (x :: xs)
      have hnodup : (d :: rest).Nodup := hperm.nodup_iff.mpr nd
      have hstrict : (d :: rest).Pairwise (fun a b => a > b) :=
        sorted_ge_nodup_gt _ hsorted hnodup
      have hdm : d = xs.foldl max x := by
        refine le_antisymm (hmax_le d (hperm.subset (List.mem_cons_self d rest))) ?_
        rcases List.mem_cons.mp (hperm.mem_iff.mpr hmax_mem) with h | h
        · exact le_of_eq h
        · exact le_of_lt ((List.pairwise_cons.mp hstrict).1 _ h)
      simp only [listMax]
      rw [← hdm]
      by_cases hc : d = today ∨ d = today - 1
      · rw [if_pos hc, if_neg (by tauto)]
        have hlen : (x :: xs).length = rest.length + 1 := by
          rw [← hperm.length_eq]
          simp
        rw [consec_congr (x :: xs).length (x :: xs) (d :: rest) d
            fun y _ => hperm.mem_iff.symm]
        rw [consec_run rest d hstrict (x :: xs).length (le_of_eq hlen.symm)]
      · rw [if_neg hc, if_pos (by push_neg at hc; exact ⟨hc.1, hc.2⟩)]

/-! ## Claims -/

/-- Claim C1: for every action history, `calculateStreak` follows the
algorithm of §4.4 of the specification (`specStreak`): reduce the
history to the set of distinct local-calendar days with at least one
record; empty set ⇒ streak 0; most recent active day neither today nor
yesterday ⇒ streak 0; otherwise the streak is the length of the
contiguous run of days (each exactly one calendar day before the
previous counted day) ending at the most recent active day.  In
particular a history active today (day 100), yesterday (day 99) and
three days ago (day 97) yields streak 2. -/
theorem calculateStreak_matches_spec :
    (∀ (dayOf : ℤ → ℤ) (today : ℤ) (actions : List EcoActionRecord),
        calculateStreak dayOf today actions = specStreak dayOf today actions)
    ∧ calculateStreak (fun t => t) 100
        [ { action := "bike_trip", distance_km := none,
            distance_mi := some (JsNum.fin 1), co2_saved_kg := some (JsNum.fin 1),
            co2_saved_lb := none, message := "", ts := 100 },
          { action := "walk_trip", distance_km := none,
            distance_mi := some (JsNum.fin 1), co2_saved_kg := some (JsNum.fin 1),
            co2_saved_lb := none, message := "", ts := 99 },
          { action := "recycled", distance_km := none, distance_mi := none,
            co2_saved_kg := some (JsNum.fin 1), co2_saved_lb := none,
            message := "", ts := 97 } ] = 2 := by
  constructor
  · intro dayOf today actions
    unfold calculateStreak specStreak
    by_cases hA : actions.isEmpty
    · have h0 : actions = [] := by
        cases actions with
        | nil => rfl
        | cons a as => simp [List.isEmpty] at hA
      subst h0
      rfl
    · rw [if_neg hA]
      exact streak_core _ (List.nodup_dedup _) today
  · decide

/-- Claim C2 counterexample: the claim states that when the pounds
field is not a finite number the reconciliation falls back to
kilograms × 2.20462; but the source guards with `typeof === "number"`,
which NaN satisfies, so a record with `co2_saved_lb = NaN` and
`co2_saved_kg = 1` returns NaN instead of the claimed 1 × 2.20462. -/
theorem actionCo2Lb_counterexample :
    actionCo2Lb
        { action := "recycled", distance_km := none, distance_mi := none,
          co2_saved_kg := some (JsNum.fin 1), co2_saved_lb := some JsNum.nan,
          message := "", ts := 0 } = JsNum.nan ∧
      JsNum.nan ≠ JsNum.fin (1 * KG_TO_LB) :=
  ⟨rfl, by decide⟩

/-- Claim C2 (amended): `actionCo2Lb` returns the pounds field verbatim
whenever that field is present with any numeric value (finite or not);
only when the pounds field is absent does it multiply the kilograms
field (absent or NaN treated as zero) by 2.20462; it never throws
(it is a total function), and when the pounds field is present the
kilograms field has no effect on the result. -/
theorem actionCo2Lb_amended :
    (∀ (a : EcoActionRecord) (v : JsNum),
        a.co2_saved_lb = some v → actionCo2Lb a = v)
    ∧ (∀ (a : EcoActionRecord) (q : ℚ), a.co2_saved_lb = none →
        a.co2_saved_kg = some (JsNum.fin q) →
        actionCo2Lb a = JsNum.fin (q * KG_TO_LB))
    ∧ (∀ a : EcoActionRecord, a.co2_saved_lb = none →
        a.co2_saved_kg = none ∨ a.co2_saved_kg = some JsNum.nan →
        actionCo2Lb a = JsNum.fin 0)
    ∧ (∀ a b : EcoActionRecord, a.co2_saved_lb = b.co2_saved_lb →
        a.co2_saved_lb ≠ none → actionCo2Lb a = actionCo2Lb b) := by
  refine ⟨?_, ?_, ?_, ?_⟩
  · intro a v h
    simp [actionCo2Lb, h]
  · intro a q h1 h2
    simp [actionCo2Lb, h1, h2, jsOrZero, jsMul]
  · intro a h1 h2
    rcases h2 with h2 | h2 <;> simp [actionCo2Lb, h1, h2, jsOrZero, jsMul]
  · intro a b hab hne
    cases h : a.co2_saved_lb with
    | none => exact absurd h hne
    | some v =>
      have hb : b.co2_saved_lb = some v := by rw [← hab, h]
      simp [actionCo2Lb, h, hb]

/-- Witness for the amended Claim C2 at concrete records. -/
theorem actionCo2Lb_amended_witness :
    actionCo2Lb
        { action := "bike_trip", distance_km := none, distance_mi := none,
          co2_saved_kg := some (JsNum.fin 99), co2_saved_lb := some (JsNum.fin 3),
          message := "", ts := 0 } = JsNum.fin 3 ∧
    actionCo2Lb
        { action := "walk_trip", distance_km := none, distance_mi := none,
          co2_saved_kg := some (JsNum.fin 2), co2_saved_lb := none,
          message := "", ts := 0 } = JsNum.fin (2 * KG_TO_LB) ∧
    actionCo2Lb
        { action := "recycled", distance_km := none, distance_mi := none,
          co2_saved_kg := none, co2_saved_lb := none,
          message := "", ts := 0 } = JsNum.fin 0 ∧
    actionCo2Lb
        { action := "recycled", distance_km := none, distance_mi := none,
          co2_saved_kg := some (JsNum.fin 7), co2_saved_lb := some (JsNum.fin 3),
          message := "", ts := 0 } =
      actionCo2Lb
        { action := "recycled", distance_km := none, distance_mi := none,
          co2_saved_kg := some (JsNum.fin 8), co2_saved_lb := some (JsNum.fin 3),
          message := "", ts := 0 } :=
  ⟨actionCo2Lb_amended.1 _ _ rfl,
   actionCo2Lb_amended.2.1 _ _ rfl rfl,
   actionCo2Lb_amended.2.2.1 _ rfl (Or.inl rfl),
   actionCo2Lb_amended.2.2.2 _ _ rfl (by decide)⟩

/-- Claim C3: in the submission flow, a collaborator response whose CO₂
field is not a finite number aborts the flow before persistence (no
record is handed to the store), a thrown estimation failure does the
same, and a distance-resolution failure prevents `logAction` (and so
persistence) entirely. -/
theorem logAction_fail_closed :
    (∀ (k : ActionType) (d : ℚ) (now : ℤ) (resp : Co2SavingsResponse),
        isFiniteNum resp.co2_saved_kg = false →
        logAction k d now (Except.ok resp) = none)
    ∧ (∀ (k : ActionType) (d : ℚ) (now : ℤ) (e : Unit),
        logAction k d now (Except.error e) = none)
    ∧ (∀ (k : ActionType) (now : ℤ) (e : Unit)
        (ar : Except Unit Co2SavingsResponse),
        submitAction k (Except.error e) now ar = none) := by
  refine ⟨?_, fun _ _ _ _ => rfl, fun _ _ _ _ => rfl⟩
  intro k d now resp h
  cases hc : resp.co2_saved_kg with
  | fin q => rw [hc] at h; simp [isFiniteNum] at h
  | nan => simp [logAction, hc]
  | posInf => simp [logAction, hc]
  | negInf => simp [logAction, hc]

/-- Witness for Claim C3: a NaN response, a thrown estimation failure
and a failed distance resolution each produce no persisted record. -/
theorem logAction_fail_closed_witness :
    logAction ActionType.recycled 0 0 (Except.ok
      { user_id := "u", action := "recycled", co2_saved_kg := JsNum.nan,
        message := "m", agent_meta := none }) = none ∧
    logAction ActionType.bike 1 0 (Except.error ()) = none ∧
    submitAction ActionType.walk (Except.error ()) 0 (Except.ok
      { user_id := "u", action := "walk_trip", co2_saved_kg := JsNum.fin 1,
        message := "m", agent_meta := none }) = none :=
  ⟨logAction_fail_closed.1 _ _ _ _ rfl,
   logAction_fail_closed.2.1 _ _ _ (),
   logAction_fail_closed.2.2 _ _ () _⟩

/-- Claim C4: `fetchRoute` never propagates an error.  With an absent
routing credential (the empty key) it returns the Haversine fallback
and its result does not depend on the network outcome at all (no
network call); with a credential present, a transport error, a
non-"OK" status, or an empty route list all yield the Haversine
fallback (straight-line distance, empty polyline) instead of a thrown
error. -/
theorem fetchRoute_fallback_policy :
    (∀ (net : Except Unit DirectionsData) (o d : Coordinate) (mode : String),
        fetchRoute "" net o d mode = routeFallback o d)
    ∧ (∀ (net net2 : Except Unit DirectionsData) (o d : Coordinate) (mode : String),
        fetchRoute "" net o d mode = fetchRoute "" net2 o d mode)
    ∧ (∀ (key : String) (e : Unit) (o d : Coordinate) (mode : String),
        fetchRoute key (Except.error e) o d mode = routeFallback o d)
    ∧ (∀ (key : String) (data : DirectionsData) (o d : Coordinate) (mode : String),
        data.status ≠ "OK" →
        fetchRoute key (Except.ok data) o d mode = routeFallback o d)
    ∧ (∀ (key : String) (data : DirectionsData) (o d : Coordinate) (mode : String),
        data.routes = [] →
        fetchRoute key (Except.ok data) o d mode = routeFallback o d) := by
  refine ⟨fun net o d mode => rfl, fun net net2 o d mode => rfl, ?_, ?_, ?_⟩
  · intro key e o d mode
    by_cases hk : key = ""
    · simp [fetchRoute, hk]
    · simp [fetchRoute, hk, fetchRouteAttempt]
  · intro key data o d mode h
    by_cases hk : key = ""
    · simp [fetchRoute, hk]
    · simp [fetchRoute, hk, fetchRouteAttempt, h]
  · intro key data o d mode h
    by_cases hk : key = ""
    · simp [fetchRoute, hk]
    · by_cases hs : data.status = "OK"
      · simp [fetchRoute, hk, fetchRouteAttempt, hs, h]
      · simp [fetchRoute, hk, fetchRouteAttempt, hs]

/-- Witness for Claim C4: a present key with a "ZERO_RESULTS" status
falls back to the Haversine result. -/
theorem fetchRoute_fallback_policy_witness :
    fetchRoute "key" (Except.ok { status := "ZERO_RESULTS", routes := [] })
        { latitude := 0, longitude := 0 } { latitude := 1, longitude := 1 }
        "walking" =
      routeFallback { latitude := 0, longitude := 0 }
        { latitude := 1, longitude := 1 } :=
  fetchRoute_fallback_policy.2.2.2.1 "key" _ _ _ "walking" (by decide)

/-- Claim C5: `calculateTotalCo2` is the sum over all records of the
reconciled per-record pounds value `actionCo2Lb`, it is unchanged under
re-evaluation on the same list, and it is unclamped: every rational
total is attained by some history. -/
theorem calculateTotalCo2_spec :
    (∀ actions : List EcoActionRecord,
        calculateTotalCo2 actions = sumLb (actions.map actionCo2Lb))
    ∧ (∀ actions : List EcoActionRecord,
        calculateTotalCo2 actions = calculateTotalCo2 actions)
    ∧ (∀ q : ℚ, ∃ actions : List EcoActionRecord,
        calculateTotalCo2 actions = JsNum.fin q) := by
  refine ⟨fun actions => ?_, fun _ => rfl, fun q => ?_⟩
  · simp [calculateTotalCo2, sumLb, List.foldl_map]
  · refine
      ⟨[{ action := "recycled", distance_km := none, distance_mi := none,
          co2_saved_kg := some (JsNum.fin 0), co2_saved_lb := some (JsNum.fin q),
          message := "", ts := 0 }], ?_⟩
    simp [calculateTotalCo2, actionCo2Lb, jsAdd]

/-- Claim C6: `calculateLevel` is `floor(total / 5) + 1` on every
finite total, is at least 1 for every non-negative total, and takes the
values 1, 2, 1 at totals 0, 5, 4.999. -/
theorem calculateLevel_spec :
    (∀ q : ℚ, calculateLevel (JsNum.fin q) = JsNum.fin ((⌊q / 5⌋ : ℚ) + 1))
    ∧ (∀ q : ℚ, 0 ≤ q → jsLe (JsNum.fin 1) (calculateLevel (JsNum.fin q)) = true)
    ∧ calculateLevel (JsNum.fin 0) = JsNum.fin 1
    ∧ calculateLevel (JsNum.fin 5) = JsNum.fin 2
    ∧ calculateLevel (JsNum.fin 4.999) = JsNum.fin 1 := by
  have hLevel : ∀ q : ℚ, calculateLevel (JsNum.fin q) = JsNum.fin ((⌊q / 5⌋ : ℚ) + 1) := by
    intro q
    norm_num [calculateLevel, jsDiv, jsFloor, jsAdd]
  refine ⟨hLevel, ?_, by rw [hLevel]; norm_num, by rw [hLevel]; norm_num,
    by rw [hLevel]; norm_num⟩
  intro q hq
  rw [hLevel q]
  have h0 : (0 : ℚ) ≤ (⌊q / 5⌋ : ℚ) := by
    exact_mod_cast Int.floor_nonneg.mpr (by positivity)
  simp only [jsLe, decide_eq_true_eq]
  linarith

/-- Witness for Claim C6 at total 0: the level is at least 1. -/
theorem calculateLevel_spec_witness :
    jsLe (JsNum.fin 1) (calculateLevel (JsNum.fin 0)) = true :=
  calculateLevel_spec.2.1 0 le_rfl

/-- Claim C7: `calculateBadges` marks each badge of the fixed catalog
earned exactly when the total is ≥ the threshold of that badge alone
(independently of the other badges and of catalog order); at total 5.0
exactly "Eco Starter" and "Eco Committed" are earned; and any total at
or above the highest threshold (100) earns every badge. -/
theorem calculateBadges_thresholds :
    (∀ (t : JsNum), ∀ b ∈ calculateBadges t,
        b.earned = jsGe t (JsNum.fin b.threshold))
    ∧ (calculateBadges (JsNum.fin 5)).map Badge.earned =
        [true, true, false, false, false, false]
    ∧ (∀ q : ℚ, 100 ≤ q → ∀ b ∈ calculateBadges (JsNum.fin q),
        b.earned = true) := by
  refine ⟨?_, by decide, ?_⟩
  · intro t b hb
    simp only [calculateBadges, List.mem_map] at hb
    obtain ⟨dfn, hdfn, rfl⟩ := hb
    rfl
  · intro q hq b hb
    simp only [calculateBadges, BADGE_DEFINITIONS, List.mem_map,
      List.mem_cons, List.not_mem_nil, or_false] at hb
    obtain ⟨dfn, hdfn, rfl⟩ := hb
    rcases hdfn with rfl | rfl | rfl | rfl | rfl | rfl <;>
      · simp only [jsGe, jsLe, decide_eq_true_eq]
        linarith

/-- Witness for Claim C7: total 150 is above the highest threshold and
earns (for instance) the Planet Guardian badge. -/
theorem calculateBadges_thresholds_witness :
    ({ id := "guardian", name := "Planet Guardian",
       description := "Save 100 lb of CO₂", icon := "🌍", threshold := 100,
       earned := true } : Badge).earned = true :=
  calculateBadges_thresholds.2.2 150 (by norm_num) _ (by decide)

/-- Claim C8: `decodePolyline` on the empty string returns the empty
coordinate sequence, and it is a deterministic total function: the
(finite) output list is the same on every evaluation of the same
input. -/
theorem decodePolyline_spec :
    decodePolyline "" = [] ∧ ∀ s : String, decodePolyline s = decodePolyline s :=
  ⟨rfl, fun _ => rfl⟩

/-- Claim C9: badge earning is monotone in the total: if `t1 <= t2`
(as JS numbers) then every badge earned at `t1` is earned, with the
same identity and threshold, at `t2`. -/
theorem calculateBadges_monotone :
    ∀ t1 t2 : JsNum, jsLe t1 t2 = true →
      ∀ b1 ∈ calculateBadges t1, b1.earned = true →
        ∃ b2 ∈ calculateBadges t2, b2.id = b1.id ∧ b2.threshold = b1.threshold ∧
          b2.earned = true := by
  intro t1 t2 h12 b1 hb1 he1
  simp only [calculateBadges, List.mem_map] at hb1
  obtain ⟨dfn, hdfn, rfl⟩ := hb1
  refine ⟨_, List.mem_map_of_mem _ hdfn, rfl, rfl, ?_⟩
  exact jsLe_trans he1 h12

/-- Witness for Claim C9: the starter badge earned at total 1 is still
earned at total 5. -/
theorem calculateBadges_monotone_witness :
    ∃ b2 ∈ calculateBadges (JsNum.fin 5),
      b2.id = "starter" ∧ b2.threshold = 1 ∧ b2.earned = true := by
  have h := calculateBadges_monotone (JsNum.fin 1) (JsNum.fin 5) (by decide)
    { id := "starter", name := "Eco Starter",
      description := "Save your first 1 lb of CO₂", icon := "🌱",
      threshold := 1, earned := true } (by decide) rfl
  simpa using h

/-- Claim C10: for every input total (zero, negative and non-finite
included) `calculateBadges` returns exactly six badges in the catalog
order, and every field except `earned` coincides with the corresponding
fixed definition. -/
theorem calculateBadges_frame :
    ∀ t : JsNum, (calculateBadges t).length = 6 ∧
      (calculateBadges t).map stripEarned = BADGE_DEFINITIONS :=
  fun _ => ⟨rfl, rfl⟩

/-- The inner varint read consumes characters monotonically: the
unconsumed suffix is never longer than the input. -/
theorem readVarint_length_le : ∀ (codes : List ℤ) (shift : ℕ) (result : ℤ),
    (readVarint codes shift result).2.length ≤ codes.length
  | [], _, _ => le_rfl
  | c :: rest, shift, result => by
    simp only [readVarint]
    split
    · exact le_trans (readVarint_length_le rest _ _) (Nat.le_succ _)
    · exact Nat.le_succ _

/-- On a nonempty input the inner varint read consumes at least one
character. -/
theorem readVarint_length_lt (c : ℤ) (rest : List ℤ) (shift : ℕ) (result : ℤ) :
    (readVarint (c :: rest) shift result).2.length < (c :: rest).length := by
  simp only [readVarint]
  split
  · exact lt_of_le_of_lt (readVarint_length_le rest _ _) (Nat.lt_succ_self _)
  · exact Nat.lt_succ_self _

/-- The decode loop ignores its fuel argument as soon as the fuel is at
least the number of remaining characters (each iteration consumes at
least one character), so `decodeLoop codes.length codes 0 0` computes
the untruncated JS `while` loop. -/
theorem decodeLoop_fuel_irrelevant : ∀ (f g : ℕ) (codes : List ℤ) (lat lng : ℤ),
    codes.length ≤ f → codes.length ≤ g →
    decodeLoop f codes lat lng = decodeLoop g codes lat lng
  | 0, g, codes, lat, lng, hf, _ => by
    have h0 : codes = [] := List.length_eq_zero.mp (Nat.le_zero.mp hf)
    subst h0
    cases g <;> rfl
  | _ + 1, g, [], lat, lng, _, _ => by cases g <;> rfl
  | f + 1, g, c :: cs, lat, lng, hf, hg => by
    obtain ⟨g2, rfl⟩ : ∃ g2, g = g2 + 1 := by
      cases g with
      | zero => simp at hg
      | succ g2 => exact ⟨g2, rfl⟩
    simp only [decodeLoop]
    congr 1
    have h1 := readVarint_length_lt c cs 0 0
    have h2 := readVarint_length_le (readVarint (c :: cs) 0 0).2 0 0
    exact decodeLoop_fuel_irrelevant f g2 _ _ _ (by omega) (by omega)
